import Mathlib

/-!
Verification of the semantic-analysis core of the Llama compiler
(modules compiler/ast.py, compiler/type.py, compiler/infer.py, compiler/sem.py).

The Python data model and operations are embedded shallowly:
  - type terms (compiler/ast.py type nodes together with infer.PartialType)
    become the inductive type Ty; inference-relevant logic never inspects
    source positions, so Ty is position-erased (positions are treated
    separately, for the structural-equality development at the end);
  - the mutable Inferer object becomes an explicit state record threaded
    through the functions that mirror its methods;
  - Python exceptions that a method catches and logs become entries of an
    error list inside the state; Python exceptions that escape the method
    (TypeError from a bad isinstance call, KeyError from a missing dict key,
    AttributeError from a missing attribute, NameError from an undefined
    name) make the embedded function return none: the source operation does
    not complete.
Where the embedding has to commit to a Python runtime behaviour (for
example: isinstance raises TypeError when its second argument is an
instance rather than a class; names bound in a class body are not in scope
inside the methods of that class) the commitment is recorded in a comment
at the corresponding definition.
-/

/-- Type terms of the Llama semantic core: the concrete type nodes of
compiler/ast.py (Builtin instances carry their lower-cased class name as the
name attribute; User, Ref, Array, Function) together with the inference-time
type variable infer.PartialType, which is identified by its numeric type_id
(pvar below). -/
inductive Ty where
  | builtin (name : String)
  | user (name : String)
  | ref (type : Ty)
  | array (type : Ty) (dimensions : Nat)
  | fn (fromType : Ty) (toType : Ty)
  | pvar (type_id : Nat)
  deriving DecidableEq, Repr

/-- True exactly on the inference-time type variables (PartialType). -/
def Ty.isPvar : Ty → Bool
  | .pvar _ => true
  | _ => false

/-- Validator.is_array of compiler/type.py: isinstance(t, ast.Array). -/
def is_array : Ty → Bool
  | .array _ _ => true
  | _ => false

/-- Error kinds of compiler/type.py (Validator errors). Payloads carry the
offending type term. -/
inductive VErr where
  | arrayOfArray (node : Ty)
  | arrayReturn (node : Ty)
  | refOfArray (node : Ty)
  deriving DecidableEq, Repr

/-- Result of Validator.validate in compiler/type.py: success, a raised
LlamaInvalidTypeError, or an escaped Python error (crash). The dispatcher of
Validator is keyed on type(t); a PartialType is not a key, so validating one
raises KeyError (crash). -/
inductive VRes where
  | ok
  | err (e : VErr)
  | crash
  deriving DecidableEq, Repr

/-- Validator.validate of compiler/type.py, via its dispatcher:
_validate_builtin and _validate_user always pass; _validate_array raises
LlamaArrayofArrayError when the element type is an array, else recurses;
_validate_ref likewise with LlamaRefofArrayError; _validate_function raises
LlamaArrayReturnError when the return type is an array, else validates the
argument type and then the return type. -/
def validate : Ty → VRes
  | .builtin _ => .ok
  | .user _ => .ok
  | .ref t =>
      if is_array t then .err (.refOfArray (.ref t)) else validate t
  | .array t d =>
      if is_array t then .err (.arrayOfArray (.array t d)) else validate t
  | .fn a b =>
      if is_array b then .err (.arrayReturn (.fn a b))
      else
        match validate a with
        | .ok => validate b
        | r => r
  | .pvar _ => .crash

/-- Specification-level validity predicate for a type term: no array whose
element type is an array, no function returning an array, no ref holding an
array, and no inference-time type variable anywhere (the Validator crashes
on those). Used to characterise which terms validate accepts. -/
def ValidTy : Ty → Bool
  | .builtin _ => true
  | .user _ => true
  | .ref t => !is_array t && ValidTy t
  | .array t _ => !is_array t && ValidTy t
  | .fn a b => !is_array b && ValidTy a && ValidTy b
  | .pvar _ => false

/-- Constructor node ast.Constructor(name, arguments): a NameNode hashing by
name; Node equality compares name and the argument-type list (source
positions excluded). Argument types are position-erased type terms. -/
structure Ctor where
  name : String
  arguments : List Ty
  deriving DecidableEq, Repr

/-- Type-definition node ast.TDef(type, arguments): the defined type and its
list of constructors (iterating a TDef yields the constructors). -/
structure TDef where
  type : Ty
  arguments : List Ctor
  deriving DecidableEq, Repr

/-- Error kinds of compiler/type.py (Table errors). -/
inductive TErr where
  | redefBuiltin (node : Ty)
  | redefUserType (node : Ty) (prev : Ty)
  | redefConstructor (node : Ctor) (prev : Ctor)
  | undefType (node : Ty)
  deriving DecidableEq, Repr

/-- State of type.Table: the two smartdict registries. knownTypes maps a
type term to the list of constructors it defines (none for the builtins,
which are pre-populated with value None). knownConstructors maps a
constructor node to the type it produces. A smartdict is a map that can
return the originally stored key for a key equal to the probe; it is
modelled as an association list keyed by structural (position-erased)
equality, which is exactly the equality Node.__eq__ gives the keys. -/
structure TableState where
  knownTypes : List (Ty × Option (List Ctor))
  knownConstructors : List (Ctor × Ty)
  deriving DecidableEq, Repr

/-- Smartdict.getKey on knownTypes: the stored key equal to the probe. -/
def getKeyT (m : List (Ty × Option (List Ctor))) (k : Ty) : Option Ty :=
  match m with
  | [] => none
  | (k', _) :: rest => if k' = k then some k' else getKeyT rest k

/-- Smartdict lookup of the value stored under a key of knownTypes. -/
def lookupT (m : List (Ty × Option (List Ctor))) (k : Ty) :
    Option (Option (List Ctor)) :=
  match m with
  | [] => none
  | (k', v) :: rest => if k' = k then some v else lookupT rest k

/-- Smartdict store on knownTypes: replace the binding of an equal key, or
append a new binding. -/
def setT (m : List (Ty × Option (List Ctor))) (k : Ty)
    (v : Option (List Ctor)) : List (Ty × Option (List Ctor)) :=
  match m with
  | [] => [(k, v)]
  | (k', v') :: rest =>
      if k' = k then (k, v) :: rest else (k', v') :: setT rest k v

/-- Membership test (argType not in self.knownTypes). -/
def containsT (m : List (Ty × Option (List Ctor))) (k : Ty) : Bool :=
  (lookupT m k).isSome

/-- Smartdict.getKey on knownConstructors. -/
def getKeyC (m : List (Ctor × Ty)) (k : Ctor) : Option Ctor :=
  match m with
  | [] => none
  | (k', _) :: rest => if k' = k then some k' else getKeyC rest k

/-- True when the constructor name occurs among the registered
constructors. -/
def containsCtorNamed (m : List (Ctor × Ty)) (n : String) : Bool :=
  m.any (fun p => p.1.name = n)

/-- The initial Table of type.Table.__init__: the five builtin types bound
to None (in builtin_types_map insertion order), no constructors. -/
def initialTable : TableState :=
  { knownTypes :=
      [ (.builtin "bool", none), (.builtin "char", none),
        (.builtin "float", none), (.builtin "int", none),
        (.builtin "unit", none) ],
    knownConstructors := [] }

/-- Outcome of a Table operation: normal return, a raised
LlamaBadTypeDefError (the registries keep all mutations made before the
raise, since Python exceptions do not roll state back), or an escaped
Python error (crash). -/
inductive TRes where
  | ok (t : TableState)
  | err (t : TableState) (e : TErr)
  | crash
  deriving DecidableEq, Repr

/-- Table._insert_new_type: if no equal key is known, bind the new type to
an empty constructor list; otherwise raise LlamaRedefBuiltinTypeError when
the stored key is a Builtin and LlamaRedefUserTypeError otherwise. -/
def insert_new_type (tb : TableState) (newType : Ty) : TRes :=
  match getKeyT tb.knownTypes newType with
  | none => .ok { tb with knownTypes := setT tb.knownTypes newType (some []) }
  | some existingType =>
      match existingType with
      | .builtin _ => .err tb (.redefBuiltin newType)
      | _ => .err tb (.redefUserType newType existingType)

/-- Table._insert_new_constructor: when no equal constructor is registered,
the constructor is first appended to knownTypes[newType] (KeyError, hence a
crash, if newType is unknown; AttributeError, hence a crash, if its stored
value is None as for a builtin) and entered into knownConstructors, and only
then are its argument types checked: the first argument type missing from
knownTypes raises LlamaUndefTypeError, with the constructor left registered.
An equal registered constructor raises LlamaRedefConstructorError. -/
def insert_new_constructor (tb : TableState) (newType : Ty) (c : Ctor) :
    TRes :=
  match getKeyC tb.knownConstructors c with
  | some existingConstructor => .err tb (.redefConstructor c existingConstructor)
  | none =>
      match lookupT tb.knownTypes newType with
      | none => .crash
      | some none => .crash
      | some (some lst) =>
          let tb1 : TableState :=
            { knownTypes := setT tb.knownTypes newType (some (lst ++ [c])),
              knownConstructors := tb.knownConstructors ++ [(c, newType)] }
          match c.arguments.find? (fun argType => !containsT tb1.knownTypes argType) with
          | some argType => .err tb1 (.undefType argType)
          | none => .ok tb1

/-- First pass of Table.process: insert every newly-defined type; a raise
aborts the remaining iterations. -/
def process_pass1 (tb : TableState) : List TDef → TRes
  | [] => .ok tb
  | tdef :: rest =>
      match insert_new_type tb tdef.type with
      | .ok tb' => process_pass1 tb' rest
      | r => r

/-- Inner loop of the second pass of Table.process over one TDef. -/
def process_ctors (tb : TableState) (newType : Ty) : List Ctor → TRes
  | [] => .ok tb
  | c :: rest =>
      match insert_new_constructor tb newType c with
      | .ok tb' => process_ctors tb' newType rest
      | r => r

/-- Second pass of Table.process: register each constructor of each TDef. -/
def process_pass2 (tb : TableState) : List TDef → TRes
  | [] => .ok tb
  | tdef :: rest =>
      match process_ctors tb tdef.type tdef.arguments with
      | .ok tb' => process_pass2 tb' rest
      | r => r

/-- Table.process: both passes, the first completed over the whole group
before the second starts (mutually recursive groups). -/
def process (tb : TableState) (typeDefList : List TDef) : TRes :=
  match process_pass1 tb typeDefList with
  | .ok tb' => process_pass2 tb' typeDefList
  | r => r

/-- Error kinds logged by the Inferer of compiler/infer.py. Payloads keep
only the data the exception constructors receive that matters structurally
(the offending type terms and sizes). -/
inductive IErr where
  | abstractType (type_id : Nat)
  | incompatibleTypes (type1 type2 : Ty)
  | incompatibleArrayDim (type1 type2 : Ty)
  | occursIn (type1 type2 : Ty)
  | badSetType (type1 : Ty)
  | typeIsFunction (type1 : Ty)
  | typeIsArray (type1 : Ty)
  | arrayDimension (type1 : Ty) (size : Nat)
  deriving DecidableEq, Repr

/-- Union-find cell infer.Inferer.UFTuple(type, size): the parent (None for
a root) and the weighted-union size. -/
structure UFTuple where
  type : Option Ty
  size : Nat
  deriving DecidableEq, Repr

/-- State of an infer.Inferer instance: the union-find dictionary _type_map
keyed by the type_id of a PartialType (two PartialTypes are equal exactly
when their ids are), the deque of constructive equality constraints, the
four non-constructive constraint buckets, the errors the logger has
received, and the global PartialType.id_count counter. Constraint fields
hold the type values stored in the corresponding namedtuples. -/
structure Inferer where
  typeMap : List (Nat × UFTuple)
  constructive : List (Ty × Ty)
  setConstraints : List (Ty × List Ty)
  notFuncConstraints : List Ty
  notArrayConstraints : List Ty
  arrayDimConstraints : List (Ty × Nat)
  errors : List IErr
  idCount : Nat
  deriving DecidableEq, Repr

/-- A fresh Inferer (infer.Inferer.__init__ with id_count at 0). -/
def emptyInferer : Inferer :=
  { typeMap := [], constructive := [], setConstraints := [],
    notFuncConstraints := [], notArrayConstraints := [],
    arrayDimConstraints := [], errors := [], idCount := 0 }

/-- Dictionary lookup in _type_map by PartialType id. -/
def lookupTM (m : List (Nat × UFTuple)) (k : Nat) : Option UFTuple :=
  match m with
  | [] => none
  | (k', v) :: rest => if k' = k then some v else lookupTM rest k

/-- Dictionary store in _type_map: replace the binding of the id, or append
a new binding. -/
def setTM (m : List (Nat × UFTuple)) (k : Nat) (v : UFTuple) :
    List (Nat × UFTuple) :=
  match m with
  | [] => [(k, v)]
  | (k', v') :: rest =>
      if k' = k then (k, v) :: rest else (k', v') :: setTM rest k v

/-- Inferer._link_to(type1, type2): the first statement reads both sizes
from _type_map. A concrete argument crashes there: a concrete type is never
a key of _type_map, and Ref, Array and Function instances are not even
hashable (they define equality but no hash), so the read raises KeyError or
TypeError. Every call that passes the size reads then evaluates UFTuple by
bare name in both branches of the weighted union (infer.py lines 500-504);
UFTuple is a class attribute of Inferer, and a Python class body is not an
enclosing scope for its methods, so this raises NameError before any store.
_link_to therefore never completes, and the weighted union it was meant to
perform never happens: the embedding returns none on every input (no
mutation precedes the crash). -/
def link_to (_ : Inferer) (_ _ : Ty) : Option Inferer :=
  none

/-- Loop of Inferer._find: follow parents while the current term is a
PartialType with a non-None parent, collecting the visited ids. A
PartialType missing from _type_map raises KeyError (none). The fuel bounds
the walk; a parent cycle, on which the Python loop diverges, exhausts it
(none). Returns the final base type and the visited children. -/
def find_loop (m : List (Nat × UFTuple)) : Nat → Ty → List Nat →
    Option (Ty × List Nat)
  | 0, base, _ =>
      match base with
      | .pvar _ => none
      | _ => some (base, [])
  | fuel + 1, base, children =>
      match base with
      | .pvar id =>
          match lookupTM m id with
          | none => none
          | some uf =>
              match uf.type with
              | none => some (.pvar id, children)
              | some next => find_loop m fuel next (children ++ [id])
      | _ => some (base, children)

/-- Compression pass of Inferer._find: link every visited child to the
final base. Since _link_to never completes, any nonempty chain of visited
children makes this pass crash. -/
def compress (s : Inferer) (base : Ty) : List Nat → Option Inferer
  | [] => some s
  | c :: rest =>
      match link_to s (.pvar c) base with
      | none => none
      | some s' => compress s' base rest

/-- Inferer._find(base_type): walk to the root, then path-compress the
visited chain. When the walk took at least one step the compression calls
_link_to, which never completes (concrete base: KeyError or TypeError at
the size read; PartialType base: NameError at the bare UFTuple), so _find
returns only on walks of zero steps: a concrete argument, or a PartialType
that is itself a root. -/
def find (s : Inferer) (base_type : Ty) : Option (Ty × Inferer) :=
  match find_loop s.typeMap (s.typeMap.length + 1) base_type [] with
  | none => none
  | some (base, children) =>
      match compress s base children with
      | none => none
      | some s' => some (base, s')

/-- Inferer._get_free_types. -/
def get_free_types : Ty → List Ty
  | .pvar id => [.pvar id]
  | .fn a b => get_free_types a ++ get_free_types b
  | .ref t => get_free_types t
  | .array t _ => get_free_types t
  | _ => []

/-- The any(...) generator of Inferer._occurs_in: find each free leaf in
turn (mutating the state), stopping at the first representative equal to
ftype1. -/
def occurs_scan (s : Inferer) (ftype1 : Ty) : List Ty →
    Option (Bool × Inferer)
  | [] => some (false, s)
  | ft :: rest =>
      match find s ft with
      | none => none
      | some (fft, s') =>
          if ftype1 = fft then some (true, s')
          else occurs_scan s' ftype1 rest

/-- Inferer._occurs_in(type1, type2): compute the free leaves of type2,
find the representative of type1, and scan. -/
def occurs_in (s : Inferer) (type1 type2 : Ty) : Option (Bool × Inferer) :=
  match find s type1 with
  | none => none
  | some (ftype1, s') => occurs_scan s' ftype1 (get_free_types type2)

/-- Inferer._upgrade_to_reps: canonicalise every PartialType leaf via
_find (which mutates the state and can crash). -/
def upgrade_to_reps (s : Inferer) : Ty → Option (Ty × Inferer)
  | .pvar id =>
      match find s (.pvar id) with
      | none => none
      | some (t, s') => some (t, s')
  | .fn a b =>
      match upgrade_to_reps s a with
      | none => none
      | some (a', s1) =>
          match upgrade_to_reps s1 b with
          | none => none
          | some (b', s2) => some (.fn a' b', s2)
  | .ref t =>
      match upgrade_to_reps s t with
      | none => none
      | some (t', s') => some (.ref t', s')
  | .array t d =>
      match upgrade_to_reps s t with
      | none => none
      | some (t', s') => some (.array t' d, s')
  | t => some (t, s)

/-- Inferer._unify_partial_partial: for equal roots it does nothing and
returns; for distinct roots it calls _link_to, which never completes
(NameError at the bare UFTuple). -/
def unify_partial_partial (s : Inferer) (type1 type2 : Ty) :
    Option Inferer :=
  if type1 ≠ type2 then link_to s type1 type2 else some s

/-- Inferer._unify_partial_concrete: occurs check, then either log
OccursInError (whose message finds type1 again and upgrades type2 to
representatives; OccursInError is a module-level class, so this branch
completes) or — in the source's intent — point the partial at the concrete
term. The pointing statement (infer.py line 374) evaluates UFTuple by bare
name, a class attribute not in the method's scope, so it raises NameError
instead of assigning: the non-occurs branch never completes and _type_map
is left as the occurs check left it. -/
def unify_partial_concrete (s : Inferer) (type1 type2 : Ty) :
    Option Inferer :=
  match occurs_in s type1 type2 with
  | none => none
  | some (true, s1) =>
      match find s1 type1 with
      | none => none
      | some (f1, s2) =>
          match upgrade_to_reps s2 type2 with
          | none => none
          | some (t2, s3) =>
              some { s3 with errors := s3.errors ++ [.occursIn f1 t2] }
  | some (false, _) => none

/-- Inferer._unify_concrete_concrete: its first statement evaluates
isinstance(type1, type2). The second argument is a type-term instance, not
a class, so Python raises TypeError unconditionally: the method never
reports IncompatibleTypesError and never reaches the Array, Function, Ref
or Builtin branches. The embedding therefore returns none (crash) for all
inputs. -/
def unify_concrete_concrete (_ : Inferer) (_ _ : Ty) : Option Inferer :=
  none

/-- Inferer._unify(type1, type2): find both roots and dispatch. In the
concrete/concrete case the source calls
self._unify_concrete_concrete(ftype1, ftype1), passing the first root for
both parameters (sic). -/
def unify (s : Inferer) (type1 type2 : Ty) : Option Inferer :=
  match find s type1 with
  | none => none
  | some (ftype1, s1) =>
      match find s1 type2 with
      | none => none
      | some (ftype2, s2) =>
          match ftype1.isPvar, ftype2.isPvar with
          | true, true => unify_partial_partial s2 ftype1 ftype2
          | true, false => unify_partial_concrete s2 ftype1 ftype2
          | false, true => unify_partial_concrete s2 ftype2 ftype1
          | false, false => unify_concrete_concrete s2 ftype1 ftype1

/-- Loop of Inferer._resolve_constructive_constraints: pop from the left of
the deque and unify, until empty. The fuel is the entry length of the
deque: _unify never appends to it, because the only methods that push
decomposed sub-equalities (_unify_array, _unify_function, _unify_ref) sit
behind the isinstance TypeError in _unify_concrete_concrete and are
unreachable, so the deque shrinks by one per iteration and the fuel is
exact. A nonempty deque on exhausted fuel is modelled as a crash. -/
def resolve_constructive_loop : Nat → Inferer → Option Inferer
  | 0, s => if s.constructive.isEmpty then some s else none
  | fuel + 1, s =>
      match s.constructive with
      | [] => some s
      | (type1, type2) :: rest =>
          match unify { s with constructive := rest } type1 type2 with
          | none => none
          | some s' => resolve_constructive_loop fuel s'

/-- Inferer._resolve_constructive_constraints. -/
def resolve_constructive_constraints (s : Inferer) : Option Inferer :=
  resolve_constructive_loop s.constructive.length s

/-- Inferer._ensure_concrete_mappings: log AbstractTypeError for every
_type_map entry whose stored parent is None or a PartialType. -/
def ensure_concrete_mappings (s : Inferer) : Inferer :=
  { s with errors := s.errors ++ s.typeMap.filterMap (fun p =>
      match p.2.type with
      | none => some (.abstractType p.1)
      | some (.pvar _) => some (.abstractType p.1)
      | some _ => none) }

/-- Inferer._resolve_set_constraints: the body evaluates
isinstance(c.type1, c.good_set) on the first constraint. good_set is a
tuple of type-term instances, not classes, so Python raises TypeError: any
nonempty bucket crashes and no find is performed. -/
def resolve_set_constraints (s : Inferer) : Option Inferer :=
  match s.setConstraints with
  | [] => some s
  | _ :: _ => none

/-- Inferer._resolve_not_func_constraints: isinstance(c.type1,
ast.Function) is evaluated on the stored constraint value itself; no find
is performed, so a PartialType handle never matches. -/
def resolve_not_func_constraints (s : Inferer) : Inferer :=
  { s with errors := s.errors ++ s.notFuncConstraints.filterMap (fun t =>
      match t with
      | .fn _ _ => some (.typeIsFunction t)
      | _ => none) }

/-- Inferer._resolve_not_array_constraints: isinstance(c.type1, ast.Array)
on the stored constraint value itself; no find is performed. -/
def resolve_not_array_constraints (s : Inferer) : Inferer :=
  { s with errors := s.errors ++ s.notArrayConstraints.filterMap (fun t =>
      match t with
      | .array _ _ => some (.typeIsArray t)
      | _ => none) }

/-- Inferer._resolve_array_dimensions_constraints: the condition and the
error constructor both read c.size, but the ArrayDimConstraint namedtuple
names its second field dimension, so the first constraint raises
AttributeError: when is_array(c.type1) is true the comparison
c.type1.dimensions >= c.size raises it, and when it is false the error
branch builds ArrayDimensionError(c.type1, c.size) and raises it there.
Any nonempty bucket therefore crashes; no find is performed. -/
def resolve_array_dimensions_constraints (s : Inferer) : Option Inferer :=
  match s.arrayDimConstraints with
  | [] => some s
  | _ :: _ => none

/-- Write-back loop of Inferer._write_back over the _type_map items: each
stored parent is passed to self._type_table.validate. A parent of None or a
PartialType makes the Validator dispatcher raise KeyError; a parent failing
validation raises LlamaInvalidTypeError; in both cases the except clause of
_write_back then evaluates typesem.InvalidTypeError, and infer.py never
imports typesem, so a NameError escapes: both are crashes. A parent that
validates is assigned to the anchored node's type slot, which does not
change the Inferer state. -/
def write_back_loop : List (Nat × UFTuple) → Option Unit
  | [] => some ()
  | (_, uf) :: rest =>
      match uf.type with
      | none => none
      | some t =>
          match validate t with
          | .ok => write_back_loop rest
          | .err _ => none
          | .crash => none

/-- Inferer._write_back. -/
def write_back (s : Inferer) : Option Inferer :=
  match write_back_loop s.typeMap with
  | none => none
  | some _ => some s

/-- Inferer.resolve: constructive unification, concreteness check,
non-constructive checks in bucket order, write-back. -/
def resolve (s : Inferer) : Option Inferer :=
  match resolve_constructive_constraints s with
  | none => none
  | some s1 =>
      let s2 := ensure_concrete_mappings s1
      match resolve_set_constraints s2 with
      | none => none
      | some s3 =>
          let s4 := resolve_not_func_constraints s3
          let s5 := resolve_not_array_constraints s4
          match resolve_array_dimensions_constraints s5 with
          | none => none
          | some s6 => write_back s6

/-- Inferer.make_new_type_referencing(node): PartialType() increments the
global PartialType.id_count and copy_pos succeeds, but the dict store that
follows (infer.py line 478) evaluates UFTuple by bare name — a class
attribute of Inferer, not in the method's scope — and raises NameError:
the method never returns and _type_map does not grow, while the consumed
id stays consumed (the class counter is already incremented when the
exception escapes). The embedding returns the state the escaped exception
leaves behind. -/
def make_new_type_referencing (s : Inferer) (_ : Option Ty) : Inferer :=
  { s with idCount := s.idCount + 1 }

/-- Outcome of Inferer.get_type_handle: a normal return carrying the
returned value, the node's type slot after the call and the state, or an
escaped NameError carrying the state its mutations left behind. -/
inductive HandleRes where
  | ok (ret : Option Ty) (nodeType : Option Ty) (s : Inferer)
  | crash (s : Inferer)
  deriving DecidableEq, Repr

/-- Inferer.get_type_handle(node): when node.type is already a PartialType
the method returns it unchanged. Otherwise it calls
make_new_type_referencing, whose NameError (bare UFTuple, infer.py line
478) escapes before new_type.node is set, before any assignment to
node.type could have happened, and before the return: the call crashes,
the node keeps its old type slot, and _type_map is unchanged (only the
global id counter has advanced). -/
def get_type_handle (s : Inferer) (nodeType : Option Ty) : HandleRes :=
  match nodeType with
  | some (.pvar id) => .ok (some (.pvar id)) (some (.pvar id)) s
  | t => .crash (make_new_type_referencing s t)

/-- Inferer.constrain_nodes_equtyped and its five sibling registration
methods reference the constraint namedtuples (EquConstraint,
SetConstraint, NotArrayConstraint, NotFuncConstraint, ArrayDimConstraint)
by bare name. Those names are bound in the class body of Inferer, and a
Python class body is not an enclosing scope for its methods, so every call
raises NameError before anything is appended: registration always
crashes. -/
def constrain_nodes_equtyped (_ : Inferer) (_ _ : Option Ty) :
    Option Inferer :=
  none

/-- See constrain_nodes_equtyped: SetConstraint is referenced by bare name
inside the method body and raises NameError. -/
def constrain_node_having_one_of_types (_ : Inferer) (_ : Option Ty)
    (_ : List Ty) : Option Inferer :=
  none

/-- Modelled from the spec: the concrete/concrete case of unification as
section 4.3.3 (a) describes it. Fail with IncompatibleTypes if the
top-level constructors differ; else for Array require equal dimensions
(IncompatibleArrayDim) and push the element-type equality to the front of
the deque; for Function push from=from and to=to to the front; for Ref
push the element equality; for Builtin require equal names. This
definition follows the specification text and exists only to be compared
with unify_concrete_concrete, the embedding of the source. -/
inductive SpecCCRes where
  | incompatibleTypes
  | incompatibleArrayDim
  | pushFront (cs : List (Ty × Ty))
  | ok
  deriving DecidableEq, Repr

/-- Modelled from the spec: see SpecCCRes. -/
def spec_unify_concrete_concrete : Ty → Ty → SpecCCRes
  | .array t1 d1, .array t2 d2 =>
      if d1 ≠ d2 then .incompatibleArrayDim else .pushFront [(t1, t2)]
  | .fn f1 t1, .fn f2 t2 => .pushFront [(t1, t2), (f1, f2)]
  | .ref t1, .ref t2 => .pushFront [(t1, t2)]
  | .builtin n1, .builtin n2 =>
      if n1 ≠ n2 then .incompatibleTypes else .ok
  | .user n1, .user n2 =>
      if n1 ≠ n2 then .incompatibleTypes else .ok
  | _, _ => .incompatibleTypes

/-- Identity of the collaborator objects handled by Analyzer.__init__ in
compiler/sem.py. Each constructor stands for one distinct Python object:
the logger the caller passed, the fresh error.Logger either constructor
builds when given None, the fresh symbol.Table, and the fresh
typesem.Table. -/
inductive PyObj where
  | providedLogger
  | newLogger
  | newSymbolTable
  | newTypeTable
  deriving DecidableEq, Repr

/-- The three dispatch tables of the Analyzer. -/
inductive DispTag where
  | generalDispatcher
  | unopDispatcher
  | binopDispatcher
  deriving DecidableEq, Repr

/-- State of an infer.Inferer as Inferer.__init__ leaves it:
self._type_table is the first positional argument, verbatim; self.logger is
the second argument, or a fresh error.Logger when that argument is None. -/
structure InfererObj where
  type_table : Option PyObj
  logger : PyObj
  deriving DecidableEq, Repr

/-- infer.Inferer.__init__(type_table, logger=None). -/
def mkInferer (type_table : Option PyObj) (logger : Option PyObj) :
    InfererObj :=
  { type_table := type_table,
    logger := match logger with
              | none => .newLogger
              | some l => l }

/-- Object graph of a sem.Analyzer after __init__. -/
structure AnalyzerObj where
  logger : PyObj
  symbol_table : PyObj
  type_table : PyObj
  inferer : InfererObj
  dispatcher : Option DispTag
  unop_dispatcher : Option DispTag
  binop_dispatcher : Option DispTag
  deriving DecidableEq, Repr

/-- sem.Analyzer.__init__(logger=None), statement by statement: bind
self.logger; _initialize_dispatchers builds the three dispatch tables;
construct the symbol table and the type table; construct the Inferer as
infer.Inferer(logger) — the raw logger parameter is passed as the first
positional argument, which is the type_table parameter of
Inferer.__init__, and no logger argument is passed; finally the three
dispatcher attributes are assigned None, overwriting the tables built
above. -/
def mkAnalyzer (logger : Option PyObj) : AnalyzerObj :=
  let a0 : AnalyzerObj :=
    { logger := match logger with
                | none => .newLogger
                | some l => l,
      dispatcher := some .generalDispatcher,
      unop_dispatcher := some .unopDispatcher,
      binop_dispatcher := some .binopDispatcher,
      symbol_table := .newSymbolTable,
      type_table := .newTypeTable,
      inferer := mkInferer logger none }
  { a0 with dispatcher := none, unop_dispatcher := none,
            binop_dispatcher := none }

/-- Modelled from the spec: a scope of the symbol table (symbol.py is not
under src; section 3.3 of the spec describes entries, a visible flag and a
nesting depth, and section 4.2 the operations). An entry binds a name to
its defining node, modelled by a numeric node identity. The nesting depth
is determined by the position in the stack and is not repeated here. -/
structure Scope where
  entries : List (String × Nat)
  visible : Bool
  deriving DecidableEq, Repr

/-- Modelled from the spec: symbol.Table as a LIFO stack of scopes,
innermost first. -/
structure SymTable where
  scopes : List Scope
  deriving DecidableEq, Repr

/-- Modelled from the spec: a symbol table with no open scope. -/
def emptySymTable : SymTable := { scopes := [] }

/-- Modelled from the spec: symbol.Table.open_scope — push a new scope,
visible by default. -/
def open_scope (st : SymTable) : SymTable :=
  { scopes := { entries := [], visible := true } :: st.scopes }

/-- Modelled from the spec: symbol.Table.close_scope — pop the innermost
scope. -/
def close_scope (st : SymTable) : SymTable :=
  { scopes := st.scopes.tail }

/-- Modelled from the spec: symbol.Table.insert_symbol registers the
definition in the innermost scope and fails with RedefIdentifier when the
name already exists in that scope (the analyzer catches and logs the
failure, so the embedding leaves the table unchanged in that case). -/
def insert_symbol (st : SymTable) (name : String) (node : Nat) : SymTable :=
  match st.scopes with
  | [] => st
  | sc :: rest =>
      if sc.entries.any (fun e => e.1 = name) then st
      else { scopes := { sc with entries := sc.entries ++ [(name, node)] } :: rest }

/-- Modelled from the spec: lookup restricted to the innermost scope
(visibility does not matter here: invisible scopes still block same-scope
redefinition). -/
def lookup_in_current_scope (st : SymTable) (name : String) : Option Nat :=
  match st.scopes with
  | [] => none
  | sc :: _ =>
      match sc.entries.find? (fun e => e.1 = name) with
      | some e => some e.2
      | none => none

/-- Modelled from the spec: the outward walk of
symbol.Table.lookup_live_def over the scope stack. -/
def lookup_live_in_scopes (name : String) : List Scope → Option Nat
  | [] => none
  | sc :: rest =>
      if sc.visible then
        match sc.entries.find? (fun e => e.1 = name) with
        | some e => some e.2
        | none => lookup_live_in_scopes name rest
      else lookup_live_in_scopes name rest

/-- Modelled from the spec: symbol.Table.lookup_live_def walks from the
innermost scope outward, skipping any scope marked invisible, and returns
the first match. -/
def lookup_live_def (st : SymTable) (name : String) : Option Nat :=
  lookup_live_in_scopes name st.scopes

/-- Analyzer._open_invisible_scope of compiler/sem.py: open a scope, then
set its visible flag to False. -/
def open_invisible_scope (st : SymTable) : SymTable :=
  match (open_scope st).scopes with
  | [] => open_scope st
  | sc :: rest => { scopes := { sc with visible := false } :: rest }

/-- Flip of the new scope to visible (new_scope.visible = True in
Analyzer._analyze_norec_letdef). -/
def set_top_visible (st : SymTable) : SymTable :=
  match st.scopes with
  | [] => st
  | sc :: rest => { scopes := { sc with visible := true } :: rest }

/-- Analyzer._insert_symbols: insert each definition of the group in
order. -/
def insert_symbols (st : SymTable) (defs : List (String × Nat)) : SymTable :=
  defs.foldl (fun t d => insert_symbol t d.1 d.2) st

/-- Analyzer._analyze_norec_letdef of compiler/sem.py: open an invisible
scope, walk each definition body (the walk parameter abstracts the
dispatch of the definitions, which touches the symbol table only through
balanced open/close pairs), flip the scope to visible, insert the group's
symbols. The scope is not closed here. -/
def analyze_norec_letdef (walk : SymTable → SymTable)
    (defs : List (String × Nat)) (st : SymTable) : SymTable :=
  insert_symbols (set_top_visible (walk (open_invisible_scope st))) defs

/-- A source position as carried by every AST node: the optional lineno and
lexpos attributes. -/
structure Pos where
  lineno : Option Nat
  lexpos : Option Nat
  deriving DecidableEq, Repr

/-- Type terms of compiler/ast.py with their source positions, as the
parser builds them: each node carries its class, its instance attributes
and its position. (Builtin subclasses are in bijection with their
lower-cased name attribute, so the name determines the class.) -/
inductive TyP where
  | builtin (name : String) (pos : Pos)
  | user (name : String) (pos : Pos)
  | ref (type : TyP) (pos : Pos)
  | array (type : TyP) (dimensions : Nat) (pos : Pos)
  | fn (fromType : TyP) (toType : TyP) (pos : Pos)
  deriving DecidableEq, Repr

/-- Node.__eq__ of compiler/ast.py on type terms: the nodes are equal when
they are instances of the same class and all instance attributes except
lineno and lexpos compare equal, recursively through attribute values that
are themselves nodes. -/
def nodeEq : TyP → TyP → Bool
  | .builtin n _, .builtin m _ => n == m
  | .user n _, .user m _ => n == m
  | .ref t _, .ref u _ => nodeEq t u
  | .array t d _, .array u e _ => nodeEq t u && d == e
  | .fn a b _, .fn c d _ => nodeEq a c && nodeEq b d
  | _, _ => false

/-- Erasure of source positions: the structural identity of a type term. -/
def stripPos : TyP → Ty
  | .builtin n _ => .builtin n
  | .user n _ => .user n
  | .ref t _ => .ref (stripPos t)
  | .array t d _ => .array (stripPos t) d
  | .fn a b _ => .fn (stripPos a) (stripPos b)

/-- A positioned constructor node (ast.Constructor), for the hashing
statement: NameNode.__hash__ returns hash(self.name), so the hash input is
the name attribute alone — arguments and position do not contribute. -/
structure CtorP where
  name : String
  arguments : List TyP
  pos : Pos
  deriving DecidableEq, Repr

/-- The argument NameNode.__hash__ of compiler/ast.py passes to hash: the
name attribute and nothing else. -/
def nameNodeHashInput (c : CtorP) : String := c.name

/-- An Inferer state holding one registered not-function constraint whose
stored handle is the PartialType 1, whose union-find parent is the concrete
function type int -> int. -/
def c2State : Inferer :=
  { emptyInferer with
    typeMap := [(1, ⟨some (.fn (.builtin "int") (.builtin "int")), 1⟩)],
    notFuncConstraints := [.pvar 1] }

/-- An Inferer state as left by a completed, error-free analysis: one
PartialType whose stored parent is concrete, no pending constraints. -/
def c9State : Inferer :=
  { emptyInferer with
    typeMap := [(1, ⟨some (.builtin "int"), 1⟩)],
    idCount := 1 }

/-- The Table state that Table.process leaves behind after raising
LlamaUndefTypeError on the group type what = What of undeftype: the
constructor What is already registered in both registries although its
argument type undeftype is not a known type. -/
def c6BadTable : TableState :=
  { knownTypes :=
      [ (.builtin "bool", none), (.builtin "char", none),
        (.builtin "float", none), (.builtin "int", none),
        (.builtin "unit", none),
        (.user "what", some [⟨"What", [.user "undeftype"]⟩]) ],
    knownConstructors := [(⟨"What", [.user "undeftype"]⟩, .user "what")] }

/-- A Table in which the user type foo is registered with no constructors
yet. -/
def c6wTable : TableState :=
  { knownTypes :=
      [ (.builtin "bool", none), (.builtin "char", none),
        (.builtin "float", none), (.builtin "int", none),
        (.builtin "unit", none), (.user "foo", some []) ],
    knownConstructors := [] }

/-- The constructor Foo of int. -/
def c6wCtor : Ctor := ⟨"Foo", [.builtin "int"]⟩

/-- The Table after successfully registering Foo of int under foo. -/
def c6wTable' : TableState :=
  { knownTypes :=
      [ (.builtin "bool", none), (.builtin "char", none),
        (.builtin "float", none), (.builtin "int", none),
        (.builtin "unit", none), (.user "foo", some [⟨"Foo", [.builtin "int"]⟩]) ],
    knownConstructors := [(⟨"Foo", [.builtin "int"]⟩, .user "foo")] }

/-- True when the innermost scope holds an entry with the given name. -/
def topHasName (st : SymTable) (name : String) : Bool :=
  match st.scopes with
  | [] => false
  | sc :: _ => sc.entries.any (fun e => e.1 = name)

theorem validate_ok_iff (t : Ty) : validate t = .ok ↔ ValidTy t = true := by
  induction t with
  | builtin n => simp [validate, ValidTy]
  | user n => simp [validate, ValidTy]
  | ref t ih =>
      by_cases h : is_array t = true
      · simp [validate, ValidTy, h]
      · simp only [Bool.not_eq_true] at h
        simp [validate, ValidTy, h, ih]
  | array t d ih =>
      by_cases h : is_array t = true
      · simp [validate, ValidTy, h]
      · simp only [Bool.not_eq_true] at h
        simp [validate, ValidTy, h, ih]
  | fn a b iha ihb =>
      by_cases h : is_array b = true
      · simp [validate, ValidTy, h]
      · simp only [Bool.not_eq_true] at h
        have hgoal : validate (Ty.fn a b)
            = (match validate a with | .ok => validate b | r => r) := by
          simp [validate, h]
        rw [hgoal]
        cases hva : validate a with
        | ok =>
            have hvta : ValidTy a = true := iha.mp hva
            simp [ValidTy, h, hvta, ihb]
        | err e =>
            have hvta : ValidTy a = false := by
              cases hv : ValidTy a
              · rfl
              · rw [iha.mpr hv] at hva
                exact absurd hva (by simp)
            simp [ValidTy, h, hvta]
        | crash =>
            have hvta : ValidTy a = false := by
              cases hv : ValidTy a
              · rfl
              · rw [iha.mpr hv] at hva
                exact absurd hva (by simp)
            simp [ValidTy, h, hvta]
  | pvar id => simp [validate, ValidTy]

theorem write_back_loop_sound :
    ∀ l : List (Nat × UFTuple), write_back_loop l = some () →
      ∀ p ∈ l, ∃ t, p.2.type = some t ∧ validate t = .ok := by
  intro l
  induction l with
  | nil => intro _ p hp; cases hp
  | cons hd tl ih =>
      intro h p hp
      obtain ⟨pid, uf⟩ := hd
      cases ht : uf.type with
      | none => simp [write_back_loop, ht] at h
      | some t =>
          cases hv : validate t with
          | ok =>
              have htl : write_back_loop tl = some () := by
                simpa [write_back_loop, ht, hv] using h
              cases hp with
              | head => exact ⟨t, ht, hv⟩
              | tail _ hmem => exact ih htl p hmem
          | err e => simp [write_back_loop, ht, hv] at h
          | crash => simp [write_back_loop, ht, hv] at h

theorem validate_ok_not_pvar (t : Ty) (h : validate t = .ok) :
    t.isPvar = false := by
  cases t with
  | pvar id => rw [validate] at h; cases h
  | builtin n => rfl
  | user n => rfl
  | ref u => rfl
  | array u d => rfl
  | fn a b => rfl

theorem write_back_shape (s s' : Inferer) (h : write_back s = some s') :
    s' = s ∧ write_back_loop s.typeMap = some () := by
  rw [write_back] at h
  cases hl : write_back_loop s.typeMap with
  | none => rw [hl] at h; cases h
  | some u =>
      cases u
      rw [hl] at h
      cases h
      exact ⟨rfl, rfl⟩

theorem resolve_ends_in_write_back (s s' : Inferer)
    (h : resolve s = some s') : ∃ s6, write_back s6 = some s' := by
  unfold resolve at h
  cases h1 : resolve_constructive_constraints s with
  | none => simp [h1] at h
  | some s1 =>
      simp only [h1] at h
      cases h3 : resolve_set_constraints (ensure_concrete_mappings s1) with
      | none => simp [h3] at h
      | some s3 =>
          simp only [h3] at h
          cases h6 : resolve_array_dimensions_constraints
              (resolve_not_array_constraints (resolve_not_func_constraints s3)) with
          | none => simp [h6] at h
          | some s6 =>
              simp only [h6] at h
              exact ⟨s6, h⟩

theorem insert_symbol_scopes_shape (st : SymTable) (n : String) (d : Nat) :
    (insert_symbol st n d).scopes.head?.map Scope.visible
      = st.scopes.head?.map Scope.visible := by
  cases hs : st.scopes with
  | nil => simp [insert_symbol, hs]
  | cons sc rest =>
      by_cases h : sc.entries.any (fun e => e.1 = n) = true
      · simp [insert_symbol, hs, h]
      · simp only [Bool.not_eq_true] at h
        simp [insert_symbol, hs, h]

theorem insert_symbols_head_visible (defs : List (String × Nat)) :
    ∀ st : SymTable,
      (insert_symbols st defs).scopes.head?.map Scope.visible
        = st.scopes.head?.map Scope.visible := by
  induction defs with
  | nil => intro st; rfl
  | cons d rest ih =>
      intro st
      have h1 : insert_symbols st (d :: rest)
          = insert_symbols (insert_symbol st d.1 d.2) rest := rfl
      rw [h1, ih, insert_symbol_scopes_shape]

theorem insert_symbol_cons (sc : Scope) (rest : List Scope) (n : String)
    (d : Nat) :
    insert_symbol ⟨sc :: rest⟩ n d
      = if sc.entries.any (fun e => e.1 = n)
        then ⟨sc :: rest⟩
        else ⟨{ sc with entries := sc.entries ++ [(n, d)] } :: rest⟩ := by
  by_cases hm : sc.entries.any (fun e => e.1 = n) = true
  · simp [insert_symbol, hm]
  · simp only [Bool.not_eq_true] at hm
    simp [insert_symbol, hm]

theorem topHasName_cons (sc : Scope) (rest : List Scope) (n : String) :
    topHasName ⟨sc :: rest⟩ n = sc.entries.any (fun e => e.1 = n) := rfl

theorem insert_symbol_topHasName_mono (st : SymTable) (n m : String)
    (d : Nat) (h : topHasName st n = true) :
    topHasName (insert_symbol st m d) n = true := by
  obtain ⟨scopes⟩ := st
  cases scopes with
  | nil => simp [topHasName] at h
  | cons sc rest =>
      rw [insert_symbol_cons]
      by_cases hm : sc.entries.any (fun e => e.1 = m) = true
      · rw [if_pos hm]
        exact h
      · simp only [Bool.not_eq_true] at hm
        rw [if_neg (by simp [hm])]
        rw [topHasName_cons] at h ⊢
        simp only [List.any_append]
        rw [h]
        rfl

theorem insert_symbol_topHasName_self (st : SymTable) (n : String)
    (d : Nat) (h : st.scopes ≠ []) :
    topHasName (insert_symbol st n d) n = true := by
  obtain ⟨scopes⟩ := st
  cases scopes with
  | nil => exact absurd rfl h
  | cons sc rest =>
      rw [insert_symbol_cons]
      by_cases hm : sc.entries.any (fun e => e.1 = n) = true
      · rw [if_pos hm]
        exact hm
      · simp only [Bool.not_eq_true] at hm
        rw [if_neg (by simp [hm])]
        rw [topHasName_cons]
        simp

theorem insert_symbol_scopes_ne_nil (st : SymTable) (n : String) (d : Nat)
    (h : st.scopes ≠ []) : (insert_symbol st n d).scopes ≠ [] := by
  obtain ⟨scopes⟩ := st
  cases scopes with
  | nil => exact absurd rfl h
  | cons sc rest =>
      rw [insert_symbol_cons]
      by_cases hm : sc.entries.any (fun e => e.1 = n) = true
      · rw [if_pos hm]
        simp
      · simp only [Bool.not_eq_true] at hm
        rw [if_neg (by simp [hm])]
        simp

theorem insert_symbols_topHasName (defs : List (String × Nat)) :
    ∀ (st : SymTable) (n : String) (d : Nat),
      st.scopes ≠ [] → ((n, d) ∈ defs ∨ topHasName st n = true) →
      topHasName (insert_symbols st defs) n = true := by
  induction defs with
  | nil =>
      intro st n d _ h
      cases h with
      | inl h => cases h
      | inr h => exact h
  | cons p rest ih =>
      intro st n d hne h
      have hstep : insert_symbols st (p :: rest)
          = insert_symbols (insert_symbol st p.1 p.2) rest := rfl
      rw [hstep]
      have hne' : (insert_symbol st p.1 p.2).scopes ≠ [] :=
        insert_symbol_scopes_ne_nil st p.1 p.2 hne
      cases h with
      | inl hmem =>
          cases List.mem_cons.mp hmem with
          | inl heq =>
              refine ih _ n d hne' (Or.inr ?_)
              have hp1 : p.1 = n := by rw [← heq]
              rw [← hp1]
              exact insert_symbol_topHasName_self st p.1 p.2 hne
          | inr hrest => exact ih _ n d hne' (Or.inl hrest)
      | inr hhas =>
          exact ih _ n d hne'
            (Or.inr (insert_symbol_topHasName_mono st n p.1 p.2 hhas))

theorem topHasName_lookup (st : SymTable) (n : String)
    (h : topHasName st n = true) :
    (lookup_in_current_scope st n).isSome = true := by
  obtain ⟨scopes⟩ := st
  cases scopes with
  | nil => simp [topHasName] at h
  | cons sc rest =>
      rw [topHasName_cons] at h
      cases hf : sc.entries.find? (fun e => e.1 = n) with
      | none =>
          rcases List.any_eq_true.mp h with ⟨e, he, hen⟩
          have hf' := List.find?_eq_none.mp hf e he
          simp at hen hf'
          exact absurd hen hf'
      | some e => simp [lookup_in_current_scope, hf]

theorem nodeEq_iff_stripPos : ∀ a b : TyP,
    nodeEq a b = true ↔ stripPos a = stripPos b := by
  intro a
  induction a with
  | builtin n p => intro b; cases b <;> simp [nodeEq, stripPos]
  | user n p => intro b; cases b <;> simp [nodeEq, stripPos]
  | ref t p ih => intro b; cases b <;> simp [nodeEq, stripPos, ih]
  | array t d p ih => intro b; cases b <;> simp [nodeEq, stripPos, ih]
  | fn a1 a2 p ih1 ih2 =>
      intro b; cases b <;> simp [nodeEq, stripPos, ih1, ih2]

/-- C1: for an equality constraint between two concrete find-roots the
claim predicts IncompatibleTypes exactly on differing top-level
constructors, and decomposition pushes otherwise. The source instead
(i) passes the first root twice into _unify_concrete_concrete, and
(ii) crashes there unconditionally, because isinstance(type1, type2) is
called with a type-term instance as its second argument, which raises
TypeError. Evaluated at the roots int and bool (different constructors):
processing the constraint crashes with no IncompatibleTypes logged, both
through the resolution loop and through _unify directly; the
concrete/concrete helper crashes on every input; the behaviour the
specification describes (spec_unify_concrete_concrete) would have reported
IncompatibleTypes. -/
theorem claim_C1_concrete_unify_crashes :
    resolve_constructive_constraints
        { emptyInferer with constructive := [(.builtin "int", .builtin "bool")] }
      = none
    ∧ unify emptyInferer (.builtin "int") (.builtin "bool") = none
    ∧ (∀ (s : Inferer) (t1 t2 : Ty), unify_concrete_concrete s t1 t2 = none)
    ∧ spec_unify_concrete_concrete (.builtin "int") (.builtin "bool")
        = .incompatibleTypes :=
  ⟨by decide, by decide, fun _ _ _ => rfl, by decide⟩

/-- C2: the claim says each non-constructive constraint is checked against
the canonical representative of its stored handle obtained via find, and
that a not-function constraint fails exactly when that representative is a
Function type. In c2State the stored handle is PartialType 1 whose
union-find parent (its representative) is the function type int -> int,
yet _resolve_not_func_constraints logs nothing and leaves the state
unchanged, because it applies isinstance(c.type1, ast.Function) to the
stored PartialType handle and never calls find; _find itself crashes on
that handle (its compression step passes the concrete parent to _link_to).
The set-membership pass crashes on any constraint (isinstance over a tuple
of type instances raises TypeError), the array-dimension pass crashes on
any constraint (the namedtuple has no size field), and even registering a
set constraint crashes (the method names SetConstraint unqualified, which
raises NameError). -/
theorem claim_C2_nonconstructive_checks_do_not_use_find :
    lookupTM c2State.typeMap 1
        = some ⟨some (.fn (.builtin "int") (.builtin "int")), 1⟩
    ∧ resolve_not_func_constraints c2State = c2State
    ∧ (resolve_not_func_constraints c2State).errors = []
    ∧ find c2State (.pvar 1) = none
    ∧ resolve_set_constraints
        { emptyInferer with setConstraints :=
            [(.pvar 1, [.builtin "char", .builtin "int", .builtin "float"])] }
      = none
    ∧ resolve_array_dimensions_constraints
        { emptyInferer with arrayDimConstraints := [(.pvar 1, 2)] } = none
    ∧ constrain_node_having_one_of_types emptyInferer none
        [.builtin "char", .builtin "int", .builtin "float"] = none := by
  refine ⟨by decide, by decide, by decide, by decide, by decide, by decide, rfl⟩

/-- C3: the claim says get_type_handle(n) always returns a Partial handle
for n: an already-Partial slot is returned unchanged, and otherwise a
fresh Partial is entered into type_map, stored into n.type and returned,
so a second call returns the same Partial. Only the already-Partial case
behaves as claimed. In the other case the method crashes: the dict store
in make_new_type_referencing evaluates UFTuple by bare name and raises
NameError (infer.py line 478), so nothing is entered into type_map,
nothing is stored into n.type and nothing is returned — only the global
id counter is consumed. Evaluated here on a node slot of None and on a
concrete slot int. (Even without that crash the method body contains no
assignment to node.type and its return statement returns node.type, so
the claimed handle contract is doubly unmet.) -/
theorem claim_C3_get_type_handle_crashes :
    get_type_handle emptyInferer none
        = .crash { emptyInferer with idCount := 1 }
    ∧ get_type_handle emptyInferer (some (.builtin "int"))
        = .crash { emptyInferer with idCount := 1 }
    ∧ ({ emptyInferer with idCount := 1 } : Inferer).typeMap = []
    ∧ get_type_handle emptyInferer (some (.pvar 5))
        = .ok (some (.pvar 5)) (some (.pvar 5)) emptyInferer := by
  refine ⟨by decide, by decide, rfl, rfl⟩

/-- C4: the claim says the Analyzer builds an Inferer whose type-table
component is the Analyzer's own (fresh) Type Table. Analyzer.__init__
instead calls infer.Inferer(logger): the logger parameter lands in the
type_table slot of the Inferer (and None when the Analyzer was built
without a logger), never the freshly built typesem.Table; moreover the
three dispatcher attributes, although built by _initialize_dispatchers,
are overwritten with None by the assignments that follow. -/
theorem claim_C4_inferer_gets_logger_not_type_table :
    (mkAnalyzer (some .providedLogger)).inferer.type_table
        = some PyObj.providedLogger
    ∧ (mkAnalyzer (some .providedLogger)).type_table = PyObj.newTypeTable
    ∧ (mkAnalyzer (some .providedLogger)).inferer.type_table
        ≠ some (mkAnalyzer (some .providedLogger)).type_table
    ∧ (mkAnalyzer none).inferer.type_table = none
    ∧ (mkAnalyzer (some .providedLogger)).dispatcher = none
    ∧ (mkAnalyzer (some .providedLogger)).unop_dispatcher = none
    ∧ (mkAnalyzer (some .providedLogger)).binop_dispatcher = none := by
  refine ⟨rfl, rfl, by decide, rfl, rfl, rfl, rfl⟩

/-- C5 counterexample: the claim says a User type that has not been
registered fails validation with UndefType. Validator._validate_user
accepts every user type unconditionally (the Validator has no access to a
registry at all), so validating the unregistered type foo succeeds — there
is no UndefType outcome in validate. The repository's own test for this
module lists the bare unregistered type foo among the valid cases. -/
theorem claim_C5_counterexample : validate (Ty.user "foo") = VRes.ok := rfl

/-- C5 amended: validate performs the structural walk and fails on the
first violation with ArrayOfArray, ArrayReturn or RefOfArray, but performs
no registration check: user types are always accepted, and no UndefType is
ever reported by validate. A term is accepted exactly when it satisfies
the three structural invariants (and contains no inference variable, on
which the dispatcher would crash). -/
theorem claim_C5_amended :
    (∀ t : Ty, validate t = .ok ↔ ValidTy t = true)
    ∧ (∀ (t : Ty) (d d' : Nat),
        validate (.array (.array t d') d)
          = .err (.arrayOfArray (.array (.array t d') d)))
    ∧ (∀ (a t : Ty) (d : Nat),
        validate (.fn a (.array t d))
          = .err (.arrayReturn (.fn a (.array t d))))
    ∧ (∀ (t : Ty) (d : Nat),
        validate (.ref (.array t d)) = .err (.refOfArray (.ref (.array t d))))
    ∧ (∀ n : String, validate (.user n) = .ok ∧ validate (.builtin n) = .ok) := by
  refine ⟨validate_ok_iff, ?_, ?_, ?_, ?_⟩
  · intro t d d'; simp [validate, is_array]
  · intro a t d; simp [validate, is_array]
  · intro t d; simp [validate, is_array]
  · intro n; exact ⟨rfl, rfl⟩

/-- C6 counterexample: processing the group type what = What of undeftype
raises LlamaUndefTypeError, but only after the constructor What has been
entered into both registries: in the resulting table What is registered
while its argument type undeftype is not a known type, violating the
claimed invariant. -/
theorem claim_C6_counterexample :
    process initialTable [⟨.user "what", [⟨"What", [.user "undeftype"]⟩]⟩]
      = .err c6BadTable (.undefType (.user "undeftype"))
    ∧ containsCtorNamed c6BadTable.knownConstructors "What" = true
    ∧ containsT c6BadTable.knownTypes (.user "undeftype") = false := by
  refine ⟨by decide, by decide, by decide⟩

/-- C6 amended: the argument-type check runs only after the constructor has
been inserted into knownTypes and knownConstructors, so a constructor whose
registration raises UndefType remains registered; a constructor whose
registration returns without error does have every argument type present in
knownTypes. -/
theorem claim_C6_amended (tb tb' : TableState) (newType : Ty) (c : Ctor)
    (h : insert_new_constructor tb newType c = .ok tb') :
    ∀ a ∈ c.arguments, containsT tb'.knownTypes a = true := by
  unfold insert_new_constructor at h
  cases hk : getKeyC tb.knownConstructors c with
  | some ex => simp [hk] at h
  | none =>
      simp only [hk] at h
      cases hl : lookupT tb.knownTypes newType with
      | none => simp [hl] at h
      | some v =>
          cases v with
          | none => simp [hl] at h
          | some lst =>
              simp only [hl] at h
              cases hf : c.arguments.find?
                  (fun argType =>
                    !containsT (setT tb.knownTypes newType (some (lst ++ [c])))
                      argType) with
              | some a => simp [hf] at h
              | none =>
                  simp only [hf] at h
                  cases h
                  intro a ha
                  have hnone := List.find?_eq_none.mp hf a ha
                  simpa using hnone

/-- C6 witness: registering Foo of int under the known type foo succeeds
and its argument type int is a known type afterwards. -/
theorem claim_C6_witness :
    containsT c6wTable'.knownTypes (Ty.builtin "int") = true :=
  claim_C6_amended c6wTable c6wTable' (.user "foo") c6wCtor (by decide)
    (Ty.builtin "int") (by decide)

/-- C7: for a non-recursive LetDef the analyzer opens a scope that is
invisible while the definition bodies are walked, so (a) outward lookup
from the walk state passes through to the enclosing scopes unchanged,
(b) nothing resolves inside the new scope during the walk (it is empty and
invisible, so the group's names do not resolve to themselves), and only
after the walk is the scope flipped to visible and filled: (c) the
handler leaves the scope visible and (d) every name bound by the group is
found in it. The symbol table is modelled from the spec (symbol.py is not
under src); the handler itself is the embedding of
Analyzer._analyze_norec_letdef, with the body walk abstracted by the
identity on the symbol table. -/
theorem claim_C7_norec_letdef :
    (∀ (st : SymTable) (name : String),
        lookup_live_def (open_invisible_scope st) name = lookup_live_def st name)
    ∧ (∀ (st : SymTable) (name : String),
        lookup_in_current_scope (open_invisible_scope st) name = none)
    ∧ (∀ (st : SymTable) (defs : List (String × Nat)),
        (analyze_norec_letdef id defs st).scopes.head?.map Scope.visible
          = some true)
    ∧ (∀ (st : SymTable) (defs : List (String × Nat)) (n : String) (d : Nat),
        (n, d) ∈ defs →
        (lookup_in_current_scope (analyze_norec_letdef id defs st) n).isSome
          = true) := by
  refine ⟨?_, ?_, ?_, ?_⟩
  · intro st name
    simp [open_invisible_scope, open_scope, lookup_live_def,
      lookup_live_in_scopes]
  · intro st name
    rfl
  · intro st defs
    rw [analyze_norec_letdef, id_eq, insert_symbols_head_visible]
    rfl
  · intro st defs n d hmem
    rw [analyze_norec_letdef, id_eq]
    exact topHasName_lookup _ n
      (insert_symbols_topHasName defs _ n d
        (by simp [set_top_visible, open_invisible_scope, open_scope])
        (Or.inl hmem))

/-- C7 witness: for the group binding f walked over the empty table, f is
found in the (now visible) group scope afterwards. -/
theorem claim_C7_witness :
    (lookup_in_current_scope
        (analyze_norec_letdef id [("f", 7)] emptySymTable) "f").isSome
      = true :=
  claim_C7_norec_letdef.2.2.2 emptySymTable [("f", 7)] "f" 7 (by decide)

/-- C9: when resolve() completes (no escaped Python error) with an empty
error log, every PartialType key of _type_map has a stored parent that is a
concrete (non-Partial) type term, i.e. each key reaches its concrete root
in a single find step and every chain is as compressed as possible. The
guarantee comes from the write-back phase, which validates every stored
parent: a None or Partial parent makes it crash, so completion forces
concreteness. -/
theorem claim_C9_roots_concrete (s s' : Inferer)
    (hres : resolve s = some s') (_herr : s'.errors = []) :
    ∀ pid uf, (pid, uf) ∈ s'.typeMap →
      ∃ t, uf.type = some t ∧ t.isPvar = false := by
  obtain ⟨s6, hwb⟩ := resolve_ends_in_write_back s s' hres
  obtain ⟨heq, hloop⟩ := write_back_shape s6 s' hwb
  subst heq
  intro pid uf hmem
  obtain ⟨t, ht, hv⟩ := write_back_loop_sound _ hloop (pid, uf) hmem
  exact ⟨t, ht, validate_ok_not_pvar t hv⟩

/-- C9 witness: on a state with a single partial already bound to the
concrete type int and no pending constraints, resolve completes with an
empty error log and the conclusion holds. -/
theorem claim_C9_witness :
    ∃ t, (⟨some (Ty.builtin "int"), 1⟩ : UFTuple).type = some t
      ∧ t.isPvar = false :=
  claim_C9_roots_concrete c9State c9State (by decide) (by decide) 1
    ⟨some (Ty.builtin "int"), 1⟩ (by decide)

/-- C10: Node.__eq__ on type terms holds exactly when the two nodes agree
up to erasure of the position attributes lineno and lexpos — same class
and equal non-position instance attributes, recursively. Consequently two
structurally identical type terms at different source positions compare
equal (the second conjunct is the instance for user types), and named
nodes hash by name alone: the argument NameNode.__hash__ feeds to hash is
the name attribute, independent of the argument list and the position.
This is what makes the type table's keying by structural identity work. -/
theorem claim_C10_structural_equality :
    (∀ a b : TyP, nodeEq a b = true ↔ stripPos a = stripPos b)
    ∧ (∀ (n : String) (p1 p2 : Pos),
        nodeEq (.user n p1) (.user n p2) = true)
    ∧ (∀ (n : String) (args1 args2 : List TyP) (p1 p2 : Pos),
        nameNodeHashInput ⟨n, args1, p1⟩ = nameNodeHashInput ⟨n, args2, p2⟩) := by
  refine ⟨nodeEq_iff_stripPos, ?_, ?_⟩
  · intro n p1 p2
    simp [nodeEq]
  · intro n args1 args2 p1 p2
    rfl
